import Mathlib

/-!
Verification of the task-queue client library (`taskqueue/taskqueue.py`).

The Python source is shallowly embedded: classes become structures, methods
become state-passing functions, raised exceptions become `Except`/`Option`
values, and the random draw of `random.uniform` becomes an explicit rational
parameter.  The worker loop `TaskQueue.poll` is embedded as a fold over a
finite trace of per-iteration environment events (what `lease`, `execute`
and `delete` did, and what `stop_fn` returned); exhausting the trace models
the cooperative `LOOP` flag being cleared.
-/

/-- Exceptions relevant to the poll loop: the queue-empty control-flow
signal `TaskQueue.QueueEmpty`, and all other exception types, identified
by an opaque tag. -/
inductive Exc where
  | QueueEmpty : Exc
  | other : Nat → Exc
deriving DecidableEq, Repr

/-- A raw task record as returned by the backend (`{id, payload}`). -/
structure RawTask where
  id : String
  payload : String
deriving DecidableEq, Repr

/-- A deserialized task object on the wire side: its serialized payload and
the backend-assigned id (`_id`), absent until attached. -/
structure TaskObj where
  payload : String
  tid : Option String
deriving DecidableEq, Repr

/-- Modelled from the spec: `deserialize` lives in the registered-task
module, which is outside the embedded source; per the spec it reconstructs
a task from its serialized payload, with no backend id attached yet. -/
def deserialize (p : String) : TaskObj :=
  { payload := p, tid := none }

/-- `totask`: deserialize a raw record's payload and attach the record's
backend-assigned id to the resulting task object. -/
def totask (task : RawTask) : TaskObj :=
  { deserialize task.payload with tid := some task.id }

/-- `TaskQueue.lease`, as a function of the backend's response: the backend
grants a list of raw task records; zero records raises `QueueEmpty`,
otherwise the first record is deserialized and returned. -/
def TaskQueue.lease (tasks : List RawTask) : Except Exc TaskObj :=
  match tasks with
  | [] => Except.error Exc.QueueEmpty
  | task :: _ => Except.ok (totask task)

/-- Claim C4: `lease` raises `QueueEmpty` when the backend returns zero
records; otherwise it deserializes the first record, attaches that
record's backend-assigned id, and returns it — only one task is surfaced
even when the backend granted more. -/
theorem lease_empty_and_first_task :
    TaskQueue.lease [] = Except.error Exc.QueueEmpty ∧
    ∀ (r : RawTask) (tl : List RawTask),
      TaskQueue.lease (r :: tl) = Except.ok (totask r) ∧
      totask r = { deserialize r.payload with tid := some r.id } ∧
      (totask r).tid = some r.id ∧
      (totask r).payload = r.payload := by
  refine ⟨rfl, ?_⟩
  intro r tl
  exact ⟨rfl, rfl, rfl, rfl⟩

/-! ## Backoff window (`random_exponential_window_backoff`) -/

/-- The high bound of the backoff window:
`n = min(n, min_backoff_window); high = min(2 ** n, max_backoff_window)`. -/
def backoff_high (n min_backoff_window max_backoff_window : Nat) : Nat :=
  min (2 ^ (min n min_backoff_window)) max_backoff_window

/-- `random_exponential_window_backoff(n)`, with the draw of
`random.uniform(0, high)` made explicit: a draw `r ∈ [0,1]` yields the
sleep duration `r * high`. -/
def random_exponential_window_backoff
    (n min_backoff_window max_backoff_window : Nat) (r : ℚ) : ℚ :=
  r * (backoff_high n min_backoff_window max_backoff_window : ℚ)

/-- Claim C3: for every retry count `n` and positive windows, the backoff
sleep duration lies within
`[0, min(2 ^ min(n, min_backoff_window), max_backoff_window)]`. -/
theorem random_exponential_window_backoff_bounds
    (n minw maxw : Nat) (r : ℚ)
    (_hminw : 0 < minw) (_hmaxw : 0 < maxw)
    (hr0 : 0 ≤ r) (hr1 : r ≤ 1) :
    0 ≤ random_exponential_window_backoff n minw maxw r ∧
    random_exponential_window_backoff n minw maxw r ≤
      ((min (2 ^ (min n minw)) maxw : Nat) : ℚ) := by
  constructor
  · exact mul_nonneg hr0 (by positivity)
  · calc r * (backoff_high n minw maxw : ℚ)
        ≤ 1 * (backoff_high n minw maxw : ℚ) := by
          apply mul_le_mul_of_nonneg_right hr1 (by positivity)
      _ = ((min (2 ^ (min n minw)) maxw : Nat) : ℚ) := by
          rw [one_mul]; rfl

/-- Witness for C3 at `n = 5`, windows `3` and `10`, draw `r = 1/2`. -/
theorem random_exponential_window_backoff_bounds_witness :
    (0 < 3 ∧ 0 < 10 ∧ (0:ℚ) ≤ 1/2 ∧ (1/2:ℚ) ≤ 1) ∧
    (0 ≤ random_exponential_window_backoff 5 3 10 (1/2) ∧
     random_exponential_window_backoff 5 3 10 (1/2) ≤
       ((min (2 ^ (min 5 3)) 10 : Nat) : ℚ)) :=
  ⟨⟨by norm_num, by norm_num, by norm_num, by norm_num⟩,
   random_exponential_window_backoff_bounds 5 3 10 (1/2)
     (by norm_num) (by norm_num) (by norm_num) (by norm_num)⟩

/-! ## Backend interface selection (`TaskQueue._initialize_interface`) -/

/-- The value `_initialize_interface` produces: for the Google names it
RETURNS (does not raise) a `NotImplementedError` instance, which becomes
the stored API object; for the AWS names it builds the AWS API client
from the queue url (defaulting to the queue name) and the region
(defaulting to the ambient default region). -/
inductive ApiObj where
  | notImplementedInstance : ApiObj
  | awsApi : String → String → ApiObj
deriving DecidableEq, Repr

/-- Python's `str.lower()` on the character sequence (ASCII case map). -/
def pyLower (s : String) : String := String.mk (s.data.map Char.toLower)

/-- `TaskQueue._initialize_interface`: dispatch on the lowercased server
name; unknown names raise (modelled by `Except.error`). -/
def init_interface (queue_server queue_name : String)
    (qurl region : Option String) (default_region : String) :
    Except String ApiObj :=
  let server := pyLower queue_server
  if server = "pull-queue" ∨ server = "google" then
    Except.ok ApiObj.notImplementedInstance
  else if server = "sqs" ∨ server = "aws" then
    Except.ok (ApiObj.awsApi (qurl.getD queue_name) (region.getD default_region))
  else
    Except.error ("Unknown server " ++ queue_server)

/-- Whether an `Except` value models a raised exception. -/
def isErr {ε α : Type} : Except ε α → Bool
  | Except.error _ => true
  | Except.ok _ => false

/-- The recognized backend server names. -/
def recognizedServer (s : String) : Bool :=
  s = "pull-queue" ∨ s = "google" ∨ s = "sqs" ∨ s = "aws"

/-- Claim C10: constructing with server name `pull-queue` or `google` does
not raise — the initializer returns a `NotImplementedError` instance as
the API object — and an exception is raised at construction exactly for
names outside the recognized set (after lowercasing). -/
theorem init_interface_unsupported_names_do_not_raise :
    (∀ qn qurl region dr,
      init_interface "pull-queue" qn qurl region dr =
        Except.ok ApiObj.notImplementedInstance) ∧
    (∀ qn qurl region dr,
      init_interface "google" qn qurl region dr =
        Except.ok ApiObj.notImplementedInstance) ∧
    (∀ qs qn qurl region dr,
      isErr (init_interface qs qn qurl region dr) =
        !(recognizedServer (pyLower qs))) := by
  have hpq : pyLower "pull-queue" = "pull-queue" := by decide
  have hg : pyLower "google" = "google" := by decide
  refine ⟨fun qn qurl region dr => by simp [init_interface, hpq],
    fun qn qurl region dr => by simp [init_interface, hg], ?_⟩
  intro qs qn qurl region dr
  unfold init_interface recognizedServer isErr
  by_cases h1 : pyLower qs = "pull-queue" ∨ pyLower qs = "google"
  · simp only [h1, if_true]
    rcases h1 with h | h <;> simp [h]
  · simp only [h1, if_false]
    by_cases h2 : pyLower qs = "sqs" ∨ pyLower qs = "aws"
    · simp only [h2, if_true]
      rcases h2 with h | h <;> simp [h]
    · simp only [h2, if_false]
      push_neg at h1 h2
      simp [h1.1, h1.2, h2.1, h2.2]

/-! ## The worker loop (`TaskQueue.poll`) -/

/-- The environment of one iteration of the `while LOOP` body: whether the
`lease` call raised (and what), whether `task.execute` raised, whether
`self.delete` raised (`none` meaning the call succeeded), and what
`stop_fn()` returned at the end of the iteration. -/
structure IterEvent where
  leaseExc : Option Exc
  execExc : Option Exc
  deleteExc : Option Exc
  stop : Bool
deriving DecidableEq, Repr

/-- The engine-local state of the poll loop: the retry counter `tries` and
the `executed` counter, plus two ghost observations — `fullCycles` counts
iterations whose lease, execute and delete all succeeded, and `backoffLog`
records each argument passed to `random_exponential_window_backoff`. -/
structure PollState where
  tries : Nat
  executed : Nat
  fullCycles : Nat
  backoffLog : List Nat
deriving DecidableEq, Repr

/-- The state at the top of the loop: `tries = 0`, `executed = 0`. -/
def initPollState : PollState := ⟨0, 0, 0, []⟩

/-- The `try:` block of one iteration, in source order: lease, `tries += 1`,
execute, `executed += 1`, delete, `tries = 0`; the block stops at the first
call that raises, returning the updated state and the raised exception. -/
def tryBlock (st : PollState) (ev : IterEvent) : PollState × Option Exc :=
  match ev.leaseExc with
  | some e => (st, some e)
  | none =>
    let st1 := { st with tries := st.tries + 1 }
    match ev.execExc with
    | some e => (st1, some e)
    | none =>
      let st2 := { st1 with executed := st1.executed + 1 }
      match ev.deleteExc with
      | some e => (st2, some e)
      | none => ({ st2 with tries := 0, fullCycles := st2.fullCycles + 1 }, none)

/-- Whether exception `e` is caught by `except backoff_exceptions:`, where
the handler tuple is `list(backoff_exceptions) + [TaskQueue.QueueEmpty]`. -/
def isCaught (bex : List Exc) (e : Exc) : Bool :=
  decide (e ∈ bex ++ [Exc.QueueEmpty])

/-- One iteration of the loop body: the `try`/`except` blocks, the
`stop_fn()` check, and the backoff sleep (recorded in `backoffLog` as the
argument passed to the window computation; the sleep is skipped when the
stop check breaks first, as in the source).  `error` models an uncaught
exception propagating through the bare `raise`; otherwise the new state is
returned together with `true` exactly when the loop `break`s. -/
def pollStep (bex : List Exc) (st : PollState) (ev : IterEvent) :
    Except Exc (PollState × Bool) :=
  match tryBlock st ev with
  | (st1, some e) =>
    if isCaught bex e then
      if ev.stop then Except.ok (st1, true)
      else Except.ok
        ({ st1 with backoffLog := st1.backoffLog ++ [st1.tries] }, false)
    else Except.error e
  | (st1, none) =>
    if ev.stop then Except.ok (st1, true) else Except.ok (st1, false)

/-- The `while LOOP:` loop, run over a finite trace of iteration events; an
exhausted trace models the `LOOP` flag having been cleared by the signal
handler. -/
def pollLoop (bex : List Exc) : PollState → List IterEvent → Except Exc PollState
  | st, [] => Except.ok st
  | st, ev :: evs =>
    match pollStep bex st ev with
    | Except.error e => Except.error e
    | Except.ok (st1, true) => Except.ok st1
    | Except.ok (st1, false) => pollLoop bex st1 evs

/-- `TaskQueue.poll`: the value returned to the caller is `executed`. -/
def TaskQueue.poll (bex : List Exc) (evs : List IterEvent) : Except Exc Nat :=
  (pollLoop bex initPollState evs).map PollState.executed

/-- The number of lease→execute→acknowledge cycles of a run in which all
three steps succeeded (the ghost `fullCycles` observation). -/
def TaskQueue.pollFullCycles (bex : List Exc) (evs : List IterEvent) :
    Except Exc Nat :=
  (pollLoop bex initPollState evs).map PollState.fullCycles

/-- The retry counters a run passes to the backoff-window computation (the
ghost `backoffLog` observation). -/
def TaskQueue.pollBackoffLog (bex : List Exc) (evs : List IterEvent) :
    Except Exc (List Nat) :=
  (pollLoop bex initPollState evs).map PollState.backoffLog

/-- Whether a poll result models `QueueEmpty` propagating to the caller. -/
def isQueueEmptyRes : Except Exc Nat → Bool
  | Except.error Exc.QueueEmpty => true
  | _ => false

theorem isCaught_queueEmpty (bex : List Exc) :
    isCaught bex Exc.QueueEmpty = true := by
  simp [isCaught]

theorem pollStep_error_not_caught (bex : List Exc) (st : PollState)
    (ev : IterEvent) (e : Exc) (h : pollStep bex st ev = Except.error e) :
    isCaught bex e = false := by
  unfold pollStep at h
  rcases htb : tryBlock st ev with ⟨st1, oe⟩
  rw [htb] at h
  rcases oe with _ | e2 <;> dsimp only at h
  · split at h <;> simp_all
  · by_cases hc : isCaught bex e2 = true
    · rw [if_pos hc] at h
      split at h <;> simp_all
    · rw [if_neg hc] at h
      simp only [Except.error.injEq] at h
      subst h
      simpa using hc

theorem pollLoop_error_not_caught (bex : List Exc) :
    ∀ (evs : List IterEvent) (st : PollState) (e : Exc),
      pollLoop bex st evs = Except.error e → isCaught bex e = false := by
  intro evs
  induction evs with
  | nil => intro st e h; simp [pollLoop] at h
  | cons ev rest ih =>
    intro st e h
    unfold pollLoop at h
    cases hs : pollStep bex st ev with
    | error e2 =>
      rw [hs] at h
      simp only [Except.error.injEq] at h
      subst h
      exact pollStep_error_not_caught bex st ev _ hs
    | ok p =>
      rcases p with ⟨st1, b⟩
      rw [hs] at h
      cases b
      · exact ih st1 e h
      · exact absurd h (by simp)

/-- Claim C5: a `QueueEmpty` raised by `lease` never propagates out of
`poll`, for every caller-supplied `backoff_exceptions` list — the
handler tuple always contains `QueueEmpty`, so empty-queue is retryable
regardless of caller configuration. -/
theorem poll_never_propagates_queue_empty (bex : List Exc)
    (evs : List IterEvent) :
    isQueueEmptyRes (TaskQueue.poll bex evs) = false ∧
    isCaught bex Exc.QueueEmpty = true := by
  constructor
  · unfold TaskQueue.poll
    cases hl : pollLoop bex initPollState evs with
    | ok st => simp [Except.map, isQueueEmptyRes]
    | error e =>
      have hnc := pollLoop_error_not_caught bex evs initPollState e hl
      cases e with
      | QueueEmpty => rw [isCaught_queueEmpty] at hnc; cases hnc
      | other t => simp [Except.map, isQueueEmptyRes]
  · exact isCaught_queueEmpty bex

/-- Whether an iteration's lease and execute calls both succeeded; the
source increments `executed` exactly in this case, between `execute` and
`delete`. -/
def leaseExecOk (ev : IterEvent) : Bool :=
  ev.leaseExc.isNone && ev.execExc.isNone

theorem tryBlock_executed (st : PollState) (ev : IterEvent) :
    (tryBlock st ev).1.executed =
      st.executed + (if leaseExecOk ev then 1 else 0) := by
  rcases ev with ⟨le, ee, de, s⟩
  rcases le with _ | e1 <;> rcases ee with _ | e2 <;> rcases de with _ | e3 <;>
    simp [tryBlock, leaseExecOk]

theorem pollStep_ok_shape (bex : List Exc) (st : PollState) (ev : IterEvent)
    (st1 : PollState) (b : Bool)
    (h : pollStep bex st ev = Except.ok (st1, b)) :
    b = ev.stop ∧ st1.executed = (tryBlock st ev).1.executed := by
  unfold pollStep at h
  rcases htb : tryBlock st ev with ⟨stt, oe⟩
  rcases oe with _ | e2 <;> dsimp only at h ⊢ <;>
    (repeat' split at h) <;> simp_all <;>
    first
    | (obtain ⟨h1, -⟩ := h; rw [← h1])
    | skip

theorem pollLoop_executed_count (bex : List Exc) :
    ∀ (evs : List IterEvent) (st stFin : PollState),
      (∀ ev ∈ evs, ev.stop = false) →
      pollLoop bex st evs = Except.ok stFin →
      stFin.executed = st.executed + evs.countP leaseExecOk := by
  intro evs
  induction evs with
  | nil =>
    intro st stFin _ h
    simp only [pollLoop, Except.ok.injEq] at h
    subst h; simp
  | cons ev rest ih =>
    intro st stFin hstop h
    have hev : ev.stop = false := hstop ev (List.mem_cons_self ev rest)
    have hrest : ∀ x ∈ rest, x.stop = false :=
      fun x hx => hstop x (List.mem_cons_of_mem ev hx)
    unfold pollLoop at h
    cases hs : pollStep bex st ev with
    | error e => rw [hs] at h; exact absurd h (by simp)
    | ok p =>
      rcases p with ⟨st1, b⟩
      rw [hs] at h
      obtain ⟨hb, hexec⟩ := pollStep_ok_shape bex st ev st1 b hs
      rw [hev] at hb
      subst hb
      dsimp only at h
      have hrec := ih st1 stFin hrest h
      have htb := tryBlock_executed st ev
      rw [List.countP_cons]
      by_cases hle : leaseExecOk ev = true
      · simp only [hle, if_true] at htb ⊢
        omega
      · simp only [Bool.not_eq_true] at hle
        simp only [hle] at htb ⊢
        simp at htb ⊢
        omega

/-- Claim C1 (amended): for a run of the poll loop that terminates by the
loop flag being cleared (no `stop_fn` break, no fatal exception), the
value returned by `poll` equals the number of iterations in which lease
and execute both succeeded.  The counter is incremented after execution
but before the acknowledge call, so a cycle whose `delete` raises a
retryable exception still contributes one. -/
theorem poll_count_eq_lease_exec_successes (bex : List Exc)
    (evs : List IterEvent) (n : Nat)
    (hstop : ∀ ev ∈ evs, ev.stop = false)
    (hok : TaskQueue.poll bex evs = Except.ok n) :
    n = evs.countP leaseExecOk := by
  unfold TaskQueue.poll at hok
  cases hl : pollLoop bex initPollState evs with
  | error e => rw [hl] at hok; exact absurd hok (by simp [Except.map])
  | ok stFin =>
    rw [hl] at hok
    simp only [Except.map, Except.ok.injEq] at hok
    have := pollLoop_executed_count bex evs initPollState stFin hstop hl
    rw [← hok]
    simpa [initPollState] using this

/-- Witness for C1 (amended): on a one-iteration trace whose lease and
execute succeed, `poll` returns 1, the count of lease+execute successes. -/
theorem poll_count_eq_lease_exec_successes_witness :
    (∀ ev ∈ [IterEvent.mk none none none false], ev.stop = false) ∧
    TaskQueue.poll [] [IterEvent.mk none none none false] = Except.ok 1 ∧
    1 = List.countP leaseExecOk [IterEvent.mk none none none false] :=
  ⟨by decide, by rfl,
   poll_count_eq_lease_exec_successes [] [IterEvent.mk none none none false] 1
     (by decide) (by rfl)⟩

/-- Counterexample to C1 as stated: with `backoff_exceptions = [other 0]`,
a one-iteration run whose lease and execute succeed but whose `delete`
raises the caller-declared retryable exception returns 1, although zero
lease→execute→acknowledge cycles completed successfully — an iteration
that ended in a caller-declared retryable exception contributed to the
count. -/
theorem poll_counts_cycle_with_failed_delete :
    TaskQueue.poll [Exc.other 0]
        [IterEvent.mk none none (some (Exc.other 0)) true] = Except.ok 1 ∧
    TaskQueue.pollFullCycles [Exc.other 0]
        [IterEvent.mk none none (some (Exc.other 0)) true] = Except.ok 0 ∧
    isCaught [Exc.other 0] (Exc.other 0) = true :=
  ⟨rfl, rfl, by decide⟩

/-- Claim C2 is refuted by the code: `tries += 1` is reached only after a
successful lease, so an empty-queue outcome never increments the counter.
After two consecutive `QueueEmpty` iterations since the last success the
arguments passed to the backoff-window computation are `[0, 0]`, where
the claim requires `[1, 2]`. -/
theorem poll_backoff_tries_stays_zero_on_empty :
    TaskQueue.pollBackoffLog []
        [IterEvent.mk (some Exc.QueueEmpty) none none false,
         IterEvent.mk (some Exc.QueueEmpty) none none false] =
      Except.ok [0, 0] := rfl

/-! ## `TaskQueue.insert` -/

/-- A producer-side task (`RegisteredTask`): the result of `task.payload()`
and the task's class name (`task.__class__.__name__`). -/
structure PTask where
  payload : String
  className : String
deriving DecidableEq, Repr

/-- The body envelope `TaskQueue.insert` builds. -/
structure Body where
  payload : String
  queueName : String
  groupByTag : Bool
  tag : String
deriving DecidableEq, Repr

/-- The facade state relevant to `insert`: the queue name, the number of
dispatcher threads (`len(self._threads)`), the insert callables pending in
the dispatcher (represented by their bodies), and the bodies the backend
API has already received. -/
structure TQ where
  queue_name : String
  threads : Nat
  pending : List Body
  apiInserted : List Body
deriving DecidableEq, Repr

/-- The envelope `{payload, queueName, groupByTag: True, tag}` built from
`task.payload()`, `self._queue_name` and `task.__class__.__name__`. -/
def insertBody (queue_name : String) (task : PTask) : Body :=
  { payload := task.payload, queueName := queue_name,
    groupByTag := true, tag := task.className }

/-- `TaskQueue.insert`: build the body; if the thread pool is active
(`len(self._threads)` nonzero) enqueue the insertion callable and return
immediately, otherwise perform the backend call synchronously; either way
the result is the facade itself (`return self`). -/
def TaskQueue.insert (st : TQ) (task : PTask) : TQ :=
  let body := insertBody st.queue_name task
  if st.threads ≠ 0 then { st with pending := st.pending ++ [body] }
  else { st with apiInserted := st.apiInserted ++ [body] }

/-- Claim C6: `insert` builds exactly the envelope `{payload, queueName,
groupByTag: True, tag: class name}`; with an active thread pool it only
enqueues the backend call (the API receives nothing yet) and returns at
once, without one it performs the backend call synchronously; in both
cases what is returned is the facade itself. -/
theorem insert_envelope_async_sync (st : TQ) (task : PTask) :
    insertBody st.queue_name task =
      { payload := task.payload, queueName := st.queue_name,
        groupByTag := true, tag := task.className } ∧
    (st.threads ≠ 0 →
      TaskQueue.insert st task =
        { st with pending := st.pending ++ [insertBody st.queue_name task] }) ∧
    (st.threads = 0 →
      TaskQueue.insert st task =
        { st with apiInserted :=
            st.apiInserted ++ [insertBody st.queue_name task] }) := by
  refine ⟨rfl, ?_, ?_⟩
  · intro h; simp [TaskQueue.insert, h]
  · intro h; simp [TaskQueue.insert, h]

/-- Witness for C6: one facade with 40 dispatcher threads (the insert is
deferred), one with none (the API is called synchronously). -/
theorem insert_envelope_async_sync_witness :
    ((40 : Nat) ≠ 0 ∧
      TaskQueue.insert (TQ.mk "q" 40 [] []) (PTask.mk "p" "T") =
        TQ.mk "q" 40 [insertBody "q" (PTask.mk "p" "T")] []) ∧
    ((0 : Nat) = 0 ∧
      TaskQueue.insert (TQ.mk "q" 0 [] []) (PTask.mk "p" "T") =
        TQ.mk "q" 0 [] [insertBody "q" (PTask.mk "p" "T")]) :=
  ⟨⟨by decide,
    (insert_envelope_async_sync (TQ.mk "q" 40 [] []) (PTask.mk "p" "T")).2.1
      (by decide)⟩,
   ⟨rfl,
    (insert_envelope_async_sync (TQ.mk "q" 0 [] []) (PTask.mk "p" "T")).2.2
      rfl⟩⟩

/-! ## `TaskQueue.purge` -/

/-- The backend state behind the facade: its task records and whether it
offers a purge primitive (no primitive raises `AttributeError`). -/
structure Backend where
  tasks : List RawTask
  hasPurge : Bool
deriving DecidableEq, Repr

/-- Modelled from the spec: `api.list` (the backend adapter is outside the
embedded source) returns up to ~100 not-yet-deleted raw task records. -/
def apiList (b : Backend) : List RawTask :=
  b.tasks.take 100

/-- Modelled from the spec: `api.delete` removes the records with the
given backend-assigned id. -/
def apiDelete (tid : String) (b : Backend) : Backend :=
  { b with tasks := b.tasks.filter (fun t => decide (t.id ≠ tid)) }

/-- Modelled from the spec: the backend purge primitive, when offered,
deletes all tasks in the queue. -/
def apiPurge (b : Backend) : Backend :=
  { b with tasks := [] }

/-- The deletions one batch of the fallback loop enqueues (`self.delete`
runs through the dispatcher): the listed tasks' ids. -/
def issueDeletes (lst : List RawTask) : List String :=
  lst.map RawTask.id

/-- `self.wait()`: drain the pending asynchronous deletions against the
backend. -/
def waitDrain (pend : List String) (b : Backend) : Backend :=
  pend.foldl (fun acc i => apiDelete i acc) b

/-- One round of the fallback loop body: delete each listed task, then
drain the pending asynchronous deletes. -/
def purgeRound (b : Backend) : Backend :=
  waitDrain (issueDeletes (apiList b)) b

theorem waitDrain_length_le (pend : List String) :
    ∀ b : Backend, ((waitDrain pend b).tasks).length ≤ b.tasks.length := by
  induction pend with
  | nil => intro b; exact Nat.le_refl _
  | cons i rest ih =>
    intro b
    have h1 : ((apiDelete i b).tasks).length ≤ b.tasks.length :=
      List.length_filter_le _ _
    calc ((waitDrain (i :: rest) b).tasks).length
        = ((waitDrain rest (apiDelete i b)).tasks).length := rfl
      _ ≤ ((apiDelete i b).tasks).length := ih (apiDelete i b)
      _ ≤ b.tasks.length := h1

theorem purgeRound_length_lt (b : Backend) (h : b.tasks ≠ []) :
    ((purgeRound b).tasks).length < b.tasks.length := by
  obtain ⟨t0, rest, hb⟩ := List.exists_cons_of_ne_nil h
  have hlist : apiList b = t0 :: rest.take 99 := by
    simp [apiList, hb]
  have hround : purgeRound b =
      waitDrain (issueDeletes (rest.take 99)) (apiDelete t0.id b) := by
    rw [purgeRound, hlist]
    rfl
  have hcond : (decide (t0.id ≠ t0.id)) = false := by simp
  have h1 : ((apiDelete t0.id b).tasks).length < b.tasks.length := by
    show (b.tasks.filter (fun t => decide (t.id ≠ t0.id))).length <
      b.tasks.length
    rw [hb]
    simp only [List.filter_cons, hcond, Bool.false_eq_true, if_false,
      List.length_cons]
    exact Nat.lt_succ_of_le (List.length_filter_le _ _)
  calc ((purgeRound b).tasks).length
      = ((waitDrain (issueDeletes (rest.take 99))
          (apiDelete t0.id b)).tasks).length := by rw [hround]
    _ ≤ ((apiDelete t0.id b).tasks).length := waitDrain_length_le _ _
    _ < b.tasks.length := h1

/-- The fallback loop of `purge`:
`while True: lst = self.list(); if len(lst) == 0: break;
for task in lst: self.delete(task); self.wait()`. -/
def purgeLoop (b : Backend) : Backend :=
  if h : apiList b = [] then b
  else purgeLoop (purgeRound b)
termination_by b.tasks.length
decreasing_by
  have hne : b.tasks ≠ [] := by
    intro hnil
    exact h (by simp [apiList, hnil])
  exact purgeRound_length_lt b hne

theorem purgeLoop_tasks_aux :
    ∀ (n : Nat) (b : Backend), b.tasks.length ≤ n → (purgeLoop b).tasks = [] := by
  intro n
  induction n with
  | zero =>
    intro b hb
    have hnil : b.tasks = [] := List.length_eq_zero.mp (Nat.le_zero.mp hb)
    rw [purgeLoop]
    simp [apiList, hnil]
  | succ n ih =>
    intro b hb
    rw [purgeLoop]
    split
    · next hl =>
      rcases List.take_eq_nil_iff.mp hl with h100 | hnil
      · exact absurd h100 (by norm_num)
      · exact hnil
    · next hl =>
      apply ih
      have hne : b.tasks ≠ [] := by
        intro hnil
        exact hl (by simp [apiList, hnil])
      have := purgeRound_length_lt b hne
      omega

theorem purgeLoop_tasks (b : Backend) : (purgeLoop b).tasks = [] :=
  purgeLoop_tasks_aux b.tasks.length b (Nat.le_refl _)

/-- `TaskQueue.purge`: try the backend purge; when the backend offers no
purge primitive (`AttributeError`), fall back to the list/delete/wait
loop. -/
def TaskQueue.purge (b : Backend) : Backend :=
  if b.hasPurge then apiPurge b else purgeLoop b

/-- Claim C7: when the backend offers no purge primitive, `purge` runs the
fallback loop — list the tasks, stop if the list is empty, otherwise
delete each listed task, drain the pending asynchronous deletes, and
repeat — and when the backend does offer purge, the backend's purge is
invoked instead; either way the queue ends empty. -/
theorem purge_backend_or_fallback (b : Backend) :
    (b.hasPurge = true → TaskQueue.purge b = apiPurge b) ∧
    (b.hasPurge = false → TaskQueue.purge b = purgeLoop b) ∧
    (apiList b = [] → purgeLoop b = b) ∧
    (apiList b ≠ [] →
      purgeLoop b = purgeLoop (waitDrain (issueDeletes (apiList b)) b)) ∧
    (TaskQueue.purge b).tasks = [] := by
  refine ⟨?_, ?_, ?_, ?_, ?_⟩
  · intro h; simp [TaskQueue.purge, h]
  · intro h; simp [TaskQueue.purge, h]
  · intro h; rw [purgeLoop]; simp [h]
  · intro h; rw [purgeLoop]; simp only [h, dite_false]; rfl
  · rw [TaskQueue.purge]
    split
    · rfl
    · exact purgeLoop_tasks b

/-- Witness for C7 on a purge-less backend holding one task. -/
theorem purge_backend_or_fallback_witness :
    (Backend.hasPurge (Backend.mk [RawTask.mk "a" "p"] false) = false ∧
     TaskQueue.purge (Backend.mk [RawTask.mk "a" "p"] false) =
       purgeLoop (Backend.mk [RawTask.mk "a" "p"] false)) ∧
    (apiList (Backend.mk [RawTask.mk "a" "p"] false) ≠ [] ∧
     purgeLoop (Backend.mk [RawTask.mk "a" "p"] false) =
       purgeLoop
         (waitDrain
           (issueDeletes (apiList (Backend.mk [RawTask.mk "a" "p"] false)))
           (Backend.mk [RawTask.mk "a" "p"] false))) ∧
    (TaskQueue.purge (Backend.mk [RawTask.mk "a" "p"] false)).tasks = [] :=
  ⟨⟨rfl, (purge_backend_or_fallback (Backend.mk [RawTask.mk "a" "p"] false)).2.1 rfl⟩,
   ⟨by decide,
    (purge_backend_or_fallback (Backend.mk [RawTask.mk "a" "p"] false)).2.2.2.1
      (by decide)⟩,
   (purge_backend_or_fallback (Backend.mk [RawTask.mk "a" "p"] false)).2.2.2.2⟩

/-! ## `MockTaskQueue` -/

/-- The Mock Backend's state: only a ghost log of executed tasks — the
class itself stores nothing at all. -/
structure MockTQ where
  executedLog : List PTask
deriving DecidableEq, Repr

/-- `MockTaskQueue.insert`: `task.execute(); del task` — the task runs
immediately in the caller's thread and nothing retains it. -/
def MockTaskQueue.insert (st : MockTQ) (task : PTask) : MockTQ :=
  { executedLog := st.executedLog ++ [task] }

/-- `MockTaskQueue.poll`: `return self`. -/
def MockTaskQueue.poll (st : MockTQ) : MockTQ := st

/-- `MockTaskQueue.wait`: `return self`. -/
def MockTaskQueue.wait (st : MockTQ) : MockTQ := st

/-- `MockTaskQueue.kill_threads`: `return self`. -/
def MockTaskQueue.kill_threads (st : MockTQ) : MockTQ := st

/-- Claim C8: the Mock Backend's `insert` executes the task immediately in
the caller's thread — when `insert` returns, the task is already on the
executed log — and retains it in no buffer (the state is the log alone);
`poll`, `wait` and `kill_threads` are all no-ops returning self. -/
theorem mock_insert_executes_immediately (st : MockTQ) (task : PTask) :
    (MockTaskQueue.insert st task).executedLog = st.executedLog ++ [task] ∧
    MockTaskQueue.insert st task = MockTQ.mk (st.executedLog ++ [task]) ∧
    MockTaskQueue.poll st = st ∧
    MockTaskQueue.wait st = st ∧
    MockTaskQueue.kill_threads st = st :=
  ⟨rfl, rfl, rfl, rfl, rfl⟩

/-! ## `LocalTaskQueue` -/

/-- The Local Parallel Backend's state: the configured parallelism, the
in-memory ordered buffer, and a ghost log of executed tasks. -/
structure LocalTQ where
  parallel : Nat
  queue : List PTask
  executedLog : List PTask
deriving DecidableEq, Repr

/-- `LocalTaskQueue.__init__`: the Python `True` (parallelism requested
generically) becomes `mp.cpu_count()`; `False` stays falsy (modelled 0);
an integer is kept as given. -/
def LocalTaskQueue.init (cpu_count : Nat) (parallel : Bool ⊕ Nat) : LocalTQ :=
  match parallel with
  | Sum.inl b =>
    { parallel := if b then cpu_count else 0, queue := [], executedLog := [] }
  | Sum.inr n => { parallel := n, queue := [], executedLog := [] }

/-- `LocalTaskQueue.insert`: `self.queue.append(task)` — no id assigned,
no execution, no other effect. -/
def LocalTaskQueue.insert (st : LocalTQ) (task : PTask) : LocalTQ :=
  { st with queue := st.queue ++ [task] }

/-- `LocalTaskQueue.__exit__`: run every buffered task once through a
process pool of `max_workers = self.parallel` (the returned number), then
clear the buffer. -/
def LocalTaskQueue.exitScope (st : LocalTQ) : Nat × LocalTQ :=
  (st.parallel,
   { st with executedLog := st.executedLog ++ st.queue, queue := [] })

/-- Claim C9: `insert` appends to the in-memory ordered buffer with no
execution and no id (a buffered task carries no id field at all); on
scope exit every buffered task is executed exactly once across a pool
sized by the configured parallelism — the core count when parallelism was
requested generically — and the buffer is cleared afterwards. -/
theorem local_insert_buffers_exit_drains (st : LocalTQ) (task : PTask)
    (cpu n : Nat) :
    LocalTaskQueue.insert st task = { st with queue := st.queue ++ [task] } ∧
    (LocalTaskQueue.insert st task).executedLog = st.executedLog ∧
    (LocalTaskQueue.exitScope st).1 = st.parallel ∧
    (LocalTaskQueue.exitScope st).2.queue = [] ∧
    (∀ x : PTask,
      ((LocalTaskQueue.exitScope st).2.executedLog).count x =
        (st.executedLog).count x + (st.queue).count x) ∧
    LocalTaskQueue.init cpu (Sum.inl true) = LocalTQ.mk cpu [] [] ∧
    LocalTaskQueue.init cpu (Sum.inr n) = LocalTQ.mk n [] [] := by
  refine ⟨rfl, rfl, rfl, rfl, ?_, rfl, rfl⟩
  intro x
  simp [LocalTaskQueue.exitScope, List.count_append]
